import Mathlib

/-!
Verification of the hakase generative-art sketches.

Shallow embedding of the three variants' core pipeline:
- `src/src/main.ts` (the scrub-enabled variant): parameter store,
  scrub slider, playhead stream `frame$`, field-generator loops and
  renderer subscription;
- `src/unnamed/part_001` (the non-scrub variant): its `values$` pipe
  with the `duration === 0` branch and the same field/render loops;
- `src/unnamed/part_000` contains only canvas-resize plumbing.

Numbers are modelled as real numbers; JavaScript `%` (truncated
remainder) is modelled by `jsMod`; canvas side effects are modelled as
an ordered list of `DrawCmd` values.
-/

namespace Hakase

/-- The full parameter record of the scrub-enabled variant
(`paneParams` in `src/src/main.ts`).  `dimension` is an integer in the
UI (min 1, max 128, step 1), so it is carried as `ℕ`. -/
structure PaneParams where
  height : ℝ
  width : ℝ
  dimension : ℕ
  gapModifier : ℝ
  depthScalar : ℝ
  baseSize : ℝ
  color1 : String
  color2 : String
  color3 : String
  color4 : String

/-- The default parameter snapshot (`paneParams` literal in the source). -/
def paneParams : PaneParams :=
  { height := 640
    width := 640
    dimension := 32
    gapModifier := 0.1
    depthScalar := 1
    baseSize := 5
    color1 := "#222831"
    color2 := "#393e46"
    color3 := "#00ADB5"
    color4 := "#EEEEEE" }

/-- `Partial<PaneParams>`: every field optional.  The control subject
carries values of this type. -/
structure PartialPaneParams where
  height : Option ℝ := none
  width : Option ℝ := none
  dimension : Option ℕ := none
  gapModifier : Option ℝ := none
  depthScalar : Option ℝ := none
  baseSize : Option ℝ := none
  color1 : Option String := none
  color2 : Option String := none
  color3 : Option String := none
  color4 : Option String := none

/-- The object-spread merge `(acc, curr) => ({ ...acc, ...curr })` used
by the `scan` in `values$`: a field present in `curr` wins, an absent
field keeps the accumulator's value. -/
def mergeParams (acc : PaneParams) (curr : PartialPaneParams) : PaneParams :=
  { height := curr.height.getD acc.height
    width := curr.width.getD acc.width
    dimension := curr.dimension.getD acc.dimension
    gapModifier := curr.gapModifier.getD acc.gapModifier
    depthScalar := curr.depthScalar.getD acc.depthScalar
    baseSize := curr.baseSize.getD acc.baseSize
    color1 := curr.color1.getD acc.color1
    color2 := curr.color2.getD acc.color2
    color3 := curr.color3.getD acc.color3
    color4 := curr.color4.getD acc.color4 }

/-- The empty partial `{}` that the `BehaviorSubject` holds initially. -/
def emptyPartial : PartialPaneParams := {}

/-- Names of the ten parameter fields. -/
inductive Field where
  | height | width | dimension | gapModifier | depthScalar | baseSize
  | color1 | color2 | color3 | color4
  deriving DecidableEq

/-- One call to `updatePaneParam(key, value)`: a single-field edit
event carrying the field name and the new value. -/
inductive ParamEdit where
  | setHeight (v : ℝ)
  | setWidth (v : ℝ)
  | setDimension (v : ℕ)
  | setGapModifier (v : ℝ)
  | setDepthScalar (v : ℝ)
  | setBaseSize (v : ℝ)
  | setColor1 (c : String)
  | setColor2 (c : String)
  | setColor3 (c : String)
  | setColor4 (c : String)

/-- The field an edit names. -/
def ParamEdit.field : ParamEdit → Field
  | .setHeight _ => .height
  | .setWidth _ => .width
  | .setDimension _ => .dimension
  | .setGapModifier _ => .gapModifier
  | .setDepthScalar _ => .depthScalar
  | .setBaseSize _ => .baseSize
  | .setColor1 _ => .color1
  | .setColor2 _ => .color2
  | .setColor3 _ => .color3
  | .setColor4 _ => .color4

/-- The one-field object `{ [key]: value }` that `updatePaneParam`
pushes into the control subject. -/
def ParamEdit.patch : ParamEdit → PartialPaneParams
  | .setHeight v => { height := some v }
  | .setWidth v => { width := some v }
  | .setDimension v => { dimension := some v }
  | .setGapModifier v => { gapModifier := some v }
  | .setDepthScalar v => { depthScalar := some v }
  | .setBaseSize v => { baseSize := some v }
  | .setColor1 c => { color1 := some c }
  | .setColor2 c => { color2 := some c }
  | .setColor3 c => { color3 := some c }
  | .setColor4 c => { color4 := some c }

/-- The snapshot `values$` holds after the given sequence of edits has
been folded by `scan((acc, curr) => ({ ...acc, ...curr }), paneParams)`. -/
def valuesAfter (edits : List ParamEdit) : PaneParams :=
  edits.foldl (fun acc e => mergeParams acc e.patch) paneParams

/-- `e.setsIn s`: snapshot `s` holds the value written by edit `e` in
the field `e` names. -/
def ParamEdit.setsIn : ParamEdit → PaneParams → Prop
  | .setHeight v, s => s.height = v
  | .setWidth v, s => s.width = v
  | .setDimension v, s => s.dimension = v
  | .setGapModifier v, s => s.gapModifier = v
  | .setDepthScalar v, s => s.depthScalar = v
  | .setBaseSize v, s => s.baseSize = v
  | .setColor1 c, s => s.color1 = c
  | .setColor2 c, s => s.color2 = c
  | .setColor3 c, s => s.color3 = c
  | .setColor4 c, s => s.color4 = c

/-- Two snapshots agree on the given field. -/
def sameField (a b : PaneParams) : Field → Prop
  | .height => a.height = b.height
  | .width => a.width = b.width
  | .dimension => a.dimension = b.dimension
  | .gapModifier => a.gapModifier = b.gapModifier
  | .depthScalar => a.depthScalar = b.depthScalar
  | .baseSize => a.baseSize = b.baseSize
  | .color1 => a.color1 = b.color1
  | .color2 => a.color2 = b.color2
  | .color3 => a.color3 = b.color3
  | .color4 => a.color4 = b.color4

/-! ## Projector -/

/-- `projectX` from the source:
`(width, normalizedX) => (width / 2) * (1 + normalizedX)`. -/
noncomputable def projectX (width normalizedX : ℝ) : ℝ :=
  (width / 2) * (1 + normalizedX)

/-- `projectY` from the source:
`(height, normalizedY) => (1 - normalizedY) * (height / 2)`. -/
noncomputable def projectY (height normalizedY : ℝ) : ℝ :=
  (1 - normalizedY) * (height / 2)

/-- The `Vector` interface: a 3-ish-D point. -/
structure Vector where
  x : ℝ
  y : ℝ
  z : ℝ

/-- The record returned by `projectVector`: screen position and the
circle's height/width (diameter). -/
structure Projected where
  x : ℝ
  y : ℝ
  h : ℝ
  w : ℝ

/-- `projectVector` from the source: `h = w = z * depthScalar * baseSize`,
screen x/y via `projectX`/`projectY`. -/
noncomputable def projectVector (v : Vector) (params : PaneParams) : Projected :=
  { x := projectX params.width v.x
    y := projectY params.height v.y
    h := v.z * params.depthScalar * params.baseSize
    w := v.z * params.depthScalar * params.baseSize }

/-- The colour chosen by the IIFE inside `drawVector`:
`z < 0.33` → color1, else `z < 0.66` → color2, else color3.
(Identical in both variants; `color4` is never read.) -/
noncomputable def vectorColor (params : PaneParams) (z : ℝ) : String :=
  if z < 0.33 then params.color1
  else if z < 0.66 then params.color2
  else params.color3

/-! ## Draw commands

The canvas side effects of one renderer invocation, in issue order. -/

/-- One canvas side effect. -/
inductive DrawCmd where
  /-- `canvas.height = h` -/
  | setCanvasHeight (h : ℝ)
  /-- `canvas.width = w` -/
  | setCanvasWidth (w : ℝ)
  /-- `context.fillStyle = color; context.fillRect(x, y, w, h)` -/
  | fillRect (x y w h : ℝ) (color : String)
  /-- `drawCircle(context, x, y, radius, color)`: one filled circle -/
  | fillCircle (x y radius : ℝ) (color : String)

/-- Whether a command is a filled-circle draw. -/
def DrawCmd.isFillCircle : DrawCmd → Bool
  | .fillCircle _ _ _ _ => true
  | _ => false

/-- Whether a command is a rectangle fill. -/
def DrawCmd.isFillRect : DrawCmd → Bool
  | .fillRect _ _ _ _ _ => true
  | _ => false

/-- `drawVector` from the source, as the command it issues: project the
point, pick the bucketed colour, draw a filled circle of radius
`projectV.w / 2` at the projected position. -/
noncomputable def drawVector (params : PaneParams) (v : Vector) : DrawCmd :=
  DrawCmd.fillCircle (projectVector v params).x (projectVector v params).y
    ((projectVector v params).w / 2) (vectorColor params v.z)

/-! ## Field generator -/

/-- The values the loop variables `i` (outer) and `j` (inner) take:
the integers of `[-D, D)` in ascending order. -/
def fieldIndices (D : ℕ) : List ℤ :=
  (List.range (2 * D)).map fun k : ℕ => (k : ℤ) - (D : ℤ)

/-- The point built in the loop body for indices `(i, j)`:
`x = i / D`, `y0 = j / D`, `r = sqrt(x² + y0²) / sqrt 2`,
`t = sin(2 * (r + playhead) * π)`, emitted as `{x, y0 * ((t + r) / 2), r}`. -/
noncomputable def fieldPoint (D : ℕ) (p : ℝ) (i j : ℤ) : Vector :=
  let x : ℝ := (i : ℝ) / (D : ℝ)
  let y : ℝ := (j : ℝ) / (D : ℝ)
  let r : ℝ := Real.sqrt (x ^ 2 + y ^ 2) / Real.sqrt 2
  let t : ℝ := Real.sin (2 * (r + p) * Real.pi)
  { x := x, y := y * ((t + r) / 2), z := r }

/-- The ordered point sequence of one frame: `i` outer, `j` inner, both
ascending over `[-D, D)`. -/
noncomputable def fieldPoints (D : ℕ) (p : ℝ) : List Vector :=
  (fieldIndices D).flatMap fun i => (fieldIndices D).map fun j => fieldPoint D p i j

/-- One renderer invocation for a `(values, playhead)` pair, as its
ordered list of canvas commands: set `canvas.height`, set
`canvas.width`, fill the full surface with `color1`, then one
`drawVector` circle per field point. -/
noncomputable def renderFrame (values : PaneParams) (playhead : ℝ) : List DrawCmd :=
  DrawCmd.setCanvasHeight values.height ::
  DrawCmd.setCanvasWidth values.width ::
  DrawCmd.fillRect 0 0 values.width values.height values.color1 ::
  (fieldPoints values.dimension playhead).map (drawVector values)

/-! ## Playhead streams -/

/-- `clamp` from the source: `Math.min(Math.max(value, min), max)`. -/
noncomputable def clamp (value lo hi : ℝ) : ℝ := min (max value lo) hi

/-- JavaScript truncation toward zero, as used by the `%` operator. -/
noncomputable def jsTrunc (x : ℝ) : ℤ := if 0 ≤ x then ⌊x⌋ else ⌈x⌉

/-- JavaScript `%`: truncated remainder `a - b * trunc(a / b)`. -/
noncomputable def jsMod (a b : ℝ) : ℝ := a - b * jsTrunc (a / b)

/-- One emission of `frame$` in the scrub-enabled variant, with scrub
value `s`, current duration `d`, and elapsed time `e` (ms) since the
inner `animationFrames()` subscription started (i.e. since the last
duration change): `duration === 0` yields the scrub value, otherwise
`(sliderValue + (elapsed % (duration * 1000)) / (duration * 1000)) % 1`. -/
noncomputable def frameEmit (s d e : ℝ) : ℝ :=
  if d = 0 then s
  else jsMod (s + jsMod e (d * 1000) / (d * 1000)) 1

/-- One emission of the `values$` pipe in the non-scrub variant
(`part_001`), for duration `d` and elapsed time `e` (ms):
`duration === 0` yields the constant `1`, otherwise
`Math.min(elapsed / (duration * 1000), 1)` (then `takeWhile (< 1)`
filters what is delivered). -/
noncomputable def nonScrubEmit (d e : ℝ) : ℝ :=
  if d = 0 then 1
  else min (e / (d * 1000)) 1

/-! ## Helper lemmas about `jsMod` -/

lemma jsTrunc_of_nonneg {x : ℝ} (hx : 0 ≤ x) : jsTrunc x = ⌊x⌋ := if_pos hx

lemma jsMod_eq_sub_floor {a b : ℝ} (ha : 0 ≤ a) (hb : 0 < b) :
    jsMod a b = a - b * ⌊a / b⌋ := by
  unfold jsMod
  rw [jsTrunc_of_nonneg (div_nonneg ha hb.le)]

lemma jsMod_of_lt {a b : ℝ} (ha : 0 ≤ a) (hab : a < b) : jsMod a b = a := by
  have hb : 0 < b := lt_of_le_of_lt ha hab
  rw [jsMod_eq_sub_floor ha hb]
  have h0 : ⌊a / b⌋ = 0 := by
    rw [Int.floor_eq_zero_iff]
    exact Set.mem_Ico.mpr ⟨div_nonneg ha hb.le, (div_lt_one hb).mpr hab⟩
  rw [h0]
  simp

lemma jsMod_nonneg {a b : ℝ} (ha : 0 ≤ a) (hb : 0 < b) : 0 ≤ jsMod a b := by
  rw [jsMod_eq_sub_floor ha hb]
  have h1 : b * (⌊a / b⌋ : ℝ) ≤ b * (a / b) :=
    mul_le_mul_of_nonneg_left (Int.floor_le (a / b)) hb.le
  have h2 : b * (a / b) = a := by field_simp
  linarith

lemma jsMod_lt {a b : ℝ} (ha : 0 ≤ a) (hb : 0 < b) : jsMod a b < b := by
  rw [jsMod_eq_sub_floor ha hb]
  have h1 : b * (a / b) < b * ((⌊a / b⌋ : ℝ) + 1) :=
    mul_lt_mul_of_pos_left (Int.lt_floor_add_one (a / b)) hb
  have h2 : b * (a / b) = a := by field_simp
  nlinarith

/-! ## Claims -/

/-- C4: `projectVector` is pure and returns screen
`x = (W/2)·(1 + x)`, screen `y = (1 − y)·(H/2)`, and
`width = height = diameter = z·depthScalar·baseSize`; consequently the
centre, edges and poles of the normalized square project to centre and
edges of the canvas. -/
theorem projectVector_spec (v : Vector) (params : PaneParams) :
    projectVector v params =
      { x := (params.width / 2) * (1 + v.x)
        y := (1 - v.y) * (params.height / 2)
        h := v.z * params.depthScalar * params.baseSize
        w := v.z * params.depthScalar * params.baseSize }
    ∧ projectVector { x := 0, y := 0, z := v.z } params =
      { x := params.width / 2
        y := params.height / 2
        h := v.z * params.depthScalar * params.baseSize
        w := v.z * params.depthScalar * params.baseSize }
    ∧ projectX params.width 1 = params.width
    ∧ projectX params.width (-1) = 0
    ∧ projectY params.height 1 = 0
    ∧ projectY params.height (-1) = params.height := by
  refine ⟨rfl, ?_, ?_, ?_, ?_, ?_⟩ <;>
    simp [projectVector, projectX, projectY] <;> ring

/-- C5: the fill colour of a circle is selected solely from the point's
`z`: `color1` if `z < 0.33`, `color2` if `0.33 ≤ z < 0.66`, `color3`
if `z ≥ 0.66`; `color4` never influences the choice. -/
theorem vectorColor_spec (params : PaneParams) (z : ℝ) :
    (z < 0.33 → vectorColor params z = params.color1)
    ∧ (0.33 ≤ z → z < 0.66 → vectorColor params z = params.color2)
    ∧ (0.66 ≤ z → vectorColor params z = params.color3)
    ∧ (∀ c, vectorColor { params with color4 := c } z = vectorColor params z) := by
  refine ⟨?_, ?_, ?_, fun c => rfl⟩
  · intro h
    unfold vectorColor
    rw [if_pos h]
  · intro h1 h2
    unfold vectorColor
    rw [if_neg (not_lt.mpr h1), if_pos h2]
  · intro h
    unfold vectorColor
    rw [if_neg (not_lt.mpr (by linarith)), if_neg (not_lt.mpr (by linarith))]

/-- Witness for C5 at `z = 0.2`, `0.5`, `0.9` on the default snapshot. -/
theorem vectorColor_spec_witness :
    ((0.2 : ℝ) < 0.33 ∧ vectorColor paneParams 0.2 = paneParams.color1)
    ∧ ((0.33 : ℝ) ≤ 0.5 ∧ (0.5 : ℝ) < 0.66 ∧ vectorColor paneParams 0.5 = paneParams.color2)
    ∧ ((0.66 : ℝ) ≤ 0.9 ∧ vectorColor paneParams 0.9 = paneParams.color3) :=
  ⟨⟨by norm_num, (vectorColor_spec paneParams 0.2).1 (by norm_num)⟩,
   ⟨by norm_num, by norm_num, (vectorColor_spec paneParams 0.5).2.1 (by norm_num) (by norm_num)⟩,
   ⟨by norm_num, (vectorColor_spec paneParams 0.9).2.2.1 (by norm_num)⟩⟩

/-- C8: `gapModifier` never influences projection or the renderer's
command sequence: changing only that field leaves `projectVector` and
`renderFrame` outputs identical. -/
theorem gapModifier_inert (params : PaneParams) (g : ℝ) (v : Vector) (p : ℝ) :
    projectVector v { params with gapModifier := g } = projectVector v params
    ∧ renderFrame { params with gapModifier := g } p = renderFrame params p :=
  ⟨rfl, rfl⟩

/-- C1: after the duration switches from `0` to `d > 0` while the scrub
value is `s`, the playhead emission at elapsed `e` is
`(s + (e mod (d·1000)) / (d·1000)) mod 1`; at `e = 0` it is exactly `s`,
and for all `e < d·1000·(1 − s)` it is exactly `s + e/(d·1000)` — a
phase-continuous resume from `s`, not a reset to `0`. -/
theorem frameEmit_phase_continuous (s d e : ℝ)
    (hs0 : 0 ≤ s) (hs1 : s < 1) (hd : 0 < d) (he : 0 ≤ e) :
    frameEmit s d e = jsMod (s + jsMod e (d * 1000) / (d * 1000)) 1
    ∧ frameEmit s d 0 = s
    ∧ (e < d * 1000 * (1 - s) → frameEmit s d e = s + e / (d * 1000)) := by
  have hd1000 : (0 : ℝ) < d * 1000 := by positivity
  refine ⟨if_neg hd.ne', ?_, ?_⟩
  · rw [frameEmit, if_neg hd.ne', jsMod_of_lt le_rfl hd1000, zero_div, add_zero,
      jsMod_of_lt hs0 hs1]
  · intro hlt
    rw [frameEmit, if_neg hd.ne']
    have hes : e < d * 1000 := by nlinarith [mul_nonneg hd1000.le hs0]
    rw [jsMod_of_lt he hes]
    have hx1 : s + e / (d * 1000) < 1 := by
      have : e / (d * 1000) < 1 - s := (div_lt_iff₀ hd1000).mpr (by linarith)
      linarith
    exact jsMod_of_lt (add_nonneg hs0 (div_nonneg he hd1000.le)) hx1

/-- Witness for C1 at `s = 0.3`, `d = 5`, `e = 500`. -/
theorem frameEmit_phase_continuous_witness :
    (0 : ℝ) ≤ 0.3 ∧ (0.3 : ℝ) < 1 ∧ (0 : ℝ) < 5 ∧ (0 : ℝ) ≤ 500
    ∧ (500 : ℝ) < 5 * 1000 * (1 - 0.3)
    ∧ frameEmit 0.3 5 500 = 0.3 + 500 / (5 * 1000) :=
  ⟨by norm_num, by norm_num, by norm_num, by norm_num, by norm_num,
   (frameEmit_phase_continuous 0.3 5 500 (by norm_num) (by norm_num) (by norm_num)
     (by norm_num)).2.2 (by norm_num)⟩

/-- Counterexample to C2: in the non-scrub variant with `duration = 0`
the delivered playhead is the constant `1`, which is not in `[0, 1)`
and is neither `0` nor a scrub-controlled value. -/
theorem nonScrubEmit_one_counterexample :
    nonScrubEmit 0 0 = 1 ∧ ¬ nonScrubEmit 0 0 < 1 := by
  constructor
  · simp [nonScrubEmit]
  · simp [nonScrubEmit]

/-- C2 (amended): every playhead delivered to a renderer lies in
`[0, 1]`.  With `duration = 0` the scrub variant pins it to the clamped
slider value (which `clamp` keeps in `[0, 1]`) and the non-scrub
variant pins it to `1`; with `duration ≠ 0` the scrub variant's
emissions lie in `[0, 1)`. -/
theorem playhead_bounds (s d e v : ℝ)
    (hs0 : 0 ≤ s) (hs1 : s ≤ 1) (hd : 0 ≤ d) (he : 0 ≤ e) :
    (0 ≤ frameEmit s d e ∧ frameEmit s d e ≤ 1)
    ∧ (d ≠ 0 → frameEmit s d e < 1)
    ∧ (d = 0 → frameEmit s d e = s)
    ∧ (0 ≤ nonScrubEmit d e ∧ nonScrubEmit d e ≤ 1)
    ∧ (d = 0 → nonScrubEmit d e = 1)
    ∧ (0 ≤ clamp v 0 1 ∧ clamp v 0 1 ≤ 1) := by
  have hfr : d ≠ 0 → 0 ≤ frameEmit s d e ∧ frameEmit s d e < 1 := by
    intro hne
    have hdpos : 0 < d := lt_of_le_of_ne hd (Ne.symm hne)
    have hd1000 : (0 : ℝ) < d * 1000 := by positivity
    have hx0 : 0 ≤ s + jsMod e (d * 1000) / (d * 1000) :=
      add_nonneg hs0 (div_nonneg (jsMod_nonneg he hd1000) hd1000.le)
    rw [frameEmit, if_neg hne]
    exact ⟨jsMod_nonneg hx0 one_pos, jsMod_lt hx0 one_pos⟩
  refine ⟨?_, fun hne => (hfr hne).2, fun h0 => by rw [frameEmit, if_pos h0], ?_, ?_, ?_⟩
  · by_cases hne : d = 0
    · rw [frameEmit, if_pos hne]
      exact ⟨hs0, hs1⟩
    · exact ⟨(hfr hne).1, (hfr hne).2.le⟩
  · unfold nonScrubEmit
    by_cases hne : d = 0
    · rw [if_pos hne]
      norm_num
    · have hdpos : 0 < d := lt_of_le_of_ne hd (Ne.symm hne)
      rw [if_neg hne]
      exact ⟨le_min (div_nonneg he (by positivity)) zero_le_one, min_le_right _ _⟩
  · intro h0
    rw [nonScrubEmit, if_pos h0]
  · unfold clamp
    constructor
    · exact le_min (le_max_right v 0) zero_le_one
    · exact min_le_right _ _

/-- Witness for the amended C2 at `s = 0.5`, `d = 2`, `e = 300`, `v = 7`. -/
theorem playhead_bounds_witness :
    (0 ≤ frameEmit 0.5 2 300 ∧ frameEmit 0.5 2 300 ≤ 1)
    ∧ ((2 : ℝ) ≠ 0 → frameEmit 0.5 2 300 < 1)
    ∧ ((2 : ℝ) = 0 → frameEmit 0.5 2 300 = 0.5)
    ∧ (0 ≤ nonScrubEmit 2 300 ∧ nonScrubEmit 2 300 ≤ 1)
    ∧ ((2 : ℝ) = 0 → nonScrubEmit 2 300 = 1)
    ∧ (0 ≤ clamp 7 0 1 ∧ clamp 7 0 1 ≤ 1) :=
  playhead_bounds 0.5 2 300 7 (by norm_num) (by norm_num) (by norm_num) (by norm_num)

/-! ## Helper lemmas about the field generator -/

lemma fieldIndices_length (D : ℕ) : (fieldIndices D).length = 2 * D := by
  simp [fieldIndices]

lemma fieldIndices_getElem? (D k : ℕ) (hk : k < 2 * D) :
    (fieldIndices D)[k]? = some ((k : ℤ) - D) := by
  rw [fieldIndices, List.getElem?_map, List.getElem?_range hk, Option.map_some']

lemma mem_fieldIndices {D : ℕ} {i : ℤ} (hi : i ∈ fieldIndices D) :
    -(D : ℤ) ≤ i ∧ i < D := by
  simp only [fieldIndices, List.mem_map, List.mem_range] at hi
  obtain ⟨k, hk, rfl⟩ := hi
  omega

lemma fieldIndices_one : fieldIndices 1 = [-1, 0] := by decide

lemma fieldPoints_length (D : ℕ) (p : ℝ) :
    (fieldPoints D p).length = (2 * D) ^ 2 := by
  rw [fieldPoints, List.length_flatMap]
  simp only [Function.comp_def, List.length_map, fieldIndices_length]
  rw [List.map_const', List.sum_replicate, fieldIndices_length, smul_eq_mul, sq]

lemma mem_fieldPoints {D : ℕ} {p : ℝ} {v : Vector} (hv : v ∈ fieldPoints D p) :
    ∃ i j : ℤ, i ∈ fieldIndices D ∧ j ∈ fieldIndices D ∧ v = fieldPoint D p i j := by
  simp only [fieldPoints, List.mem_flatMap, List.mem_map] at hv
  obtain ⟨i, hi, j, hj, rfl⟩ := hv
  exact ⟨i, j, hi, hj, rfl⟩

/-- C3: one frame iterates `i` (outer) and `j` (inner), each ascending
over the integers of `[-D, D)`, producing exactly `(2D)²` points; the
point for `(i, j)` is `{x = i/D, y = (j/D)·((t + r)/2), z = r}` with
`r = √((i/D)² + (j/D)²)/√2` and `t = sin(2π(r + p))`; for `D = 1` the
indices are exactly `{-1, 0}`. -/
theorem fieldPoints_spec (D : ℕ) (p : ℝ) (_hD : 1 ≤ D) :
    (fieldPoints D p).length = (2 * D) ^ 2
    ∧ fieldPoints D p =
        (fieldIndices D).flatMap (fun (i : ℤ) => (fieldIndices D).map (fun (j : ℤ) =>
          ({ x := (i : ℝ) / D
             y := ((j : ℝ) / D) *
               ((Real.sin (2 * Real.pi *
                   (Real.sqrt (((i : ℝ) / D) ^ 2 + ((j : ℝ) / D) ^ 2) / Real.sqrt 2 + p))
                 + Real.sqrt (((i : ℝ) / D) ^ 2 + ((j : ℝ) / D) ^ 2) / Real.sqrt 2) / 2)
             z := Real.sqrt (((i : ℝ) / D) ^ 2 + ((j : ℝ) / D) ^ 2) / Real.sqrt 2 } : Vector)))
    ∧ (fieldIndices D).length = 2 * D
    ∧ (∀ k, k < 2 * D → (fieldIndices D)[k]? = some ((k : ℤ) - D))
    ∧ (∀ i ∈ fieldIndices D, -(D : ℤ) ≤ i ∧ i < D)
    ∧ fieldIndices 1 = [-1, 0] := by
  have hsin : ∀ r : ℝ, Real.sin (2 * (r + p) * Real.pi) = Real.sin (2 * Real.pi * (r + p)) := by
    intro r
    ring_nf
  refine ⟨fieldPoints_length D p, ?_, fieldIndices_length D,
    fun k hk => fieldIndices_getElem? D k hk, fun i hi => mem_fieldIndices hi,
    fieldIndices_one⟩
  simp only [fieldPoints, fieldPoint, hsin]

/-- Witness for C3 at `D = 1`, `p = 0`. -/
theorem fieldPoints_spec_witness :
    1 ≤ 1 ∧ (fieldPoints 1 0).length = (2 * 1) ^ 2 ∧ fieldIndices 1 = [-1, 0] :=
  ⟨by norm_num, (fieldPoints_spec 1 0 (by norm_num)).1,
   (fieldPoints_spec 1 0 (by norm_num)).2.2.2.2.2⟩

/-! ## Periodicity helpers -/

lemma fieldPoint_add_one (D : ℕ) (p : ℝ) (i j : ℤ) :
    fieldPoint D (p + 1) i j = fieldPoint D p i j := by
  have h : ∀ r : ℝ,
      Real.sin (2 * (r + (p + 1)) * Real.pi) = Real.sin (2 * (r + p) * Real.pi) := by
    intro r
    have harg : 2 * (r + (p + 1)) * Real.pi = 2 * (r + p) * Real.pi + 2 * Real.pi := by
      ring
    rw [harg, Real.sin_add_two_pi]
  simp only [fieldPoint, h]

lemma fieldPoints_add_one (D : ℕ) (p : ℝ) :
    fieldPoints D (p + 1) = fieldPoints D p := by
  simp only [fieldPoints, fieldPoint_add_one]

/-- C9: the field generator is 1-periodic in the playhead — the ordered
point sequence at `p + 1` equals the one at `p` — so the non-scrub
variant's pin of the playhead to `1` when `duration = 0` renders
exactly the frame of playhead `0`. -/
theorem fieldPoints_periodic (D : ℕ) (p : ℝ) (P : PaneParams) :
    fieldPoints D (p + 1) = fieldPoints D p
    ∧ renderFrame P 1 = renderFrame P 0 := by
  refine ⟨fieldPoints_add_one D p, ?_⟩
  have h : fieldPoints P.dimension 1 = fieldPoints P.dimension 0 := by
    simpa using fieldPoints_add_one P.dimension 0
  simp [renderFrame, h]

/-! ## Renderer -/

/-- The end-to-end example snapshot of the spec:
width 640, height 640, dimension 1, depthScalar 1, baseSize 5. -/
def params640 : PaneParams :=
  { height := 640
    width := 640
    dimension := 1
    gapModifier := 0.1
    depthScalar := 1
    baseSize := 5
    color1 := "#000"
    color2 := "#111"
    color3 := "#222"
    color4 := "#EEEEEE" }

/-- C6: one renderer invocation issues, in order, the canvas resize,
exactly one full-surface fill with `color1`, then exactly one filled
circle per field point (at the projected position, bucketed colour,
radius `diameter / 2`); on the 640×640, dimension-1 example at playhead
`0` that is exactly 4 circle draws after the one 640×640 background
fill. -/
theorem renderFrame_spec (values : PaneParams) (p : ℝ) :
    renderFrame values p =
      DrawCmd.setCanvasHeight values.height ::
      DrawCmd.setCanvasWidth values.width ::
      DrawCmd.fillRect 0 0 values.width values.height values.color1 ::
      (fieldPoints values.dimension p).map (fun v =>
        DrawCmd.fillCircle (projectVector v values).x (projectVector v values).y
          ((projectVector v values).w / 2) (vectorColor values v.z))
    ∧ (renderFrame values p).countP DrawCmd.isFillRect = 1
    ∧ (renderFrame values p).countP DrawCmd.isFillCircle = (2 * values.dimension) ^ 2
    ∧ (∃ circles : List DrawCmd,
        renderFrame params640 0 =
          [DrawCmd.setCanvasHeight 640, DrawCmd.setCanvasWidth 640,
            DrawCmd.fillRect 0 0 640 640 "#000"] ++ circles
        ∧ circles.length = 4
        ∧ ∀ c ∈ circles, c.isFillCircle = true) := by
  refine ⟨rfl, ?_, ?_, ?_⟩
  · have h0 : ((fieldPoints values.dimension p).map (drawVector values)).countP
        DrawCmd.isFillRect = 0 := by
      rw [List.countP_eq_zero]
      intro c hc
      obtain ⟨v, _, rfl⟩ := List.mem_map.mp hc
      simp [drawVector, DrawCmd.isFillRect]
    simp [renderFrame, List.countP_cons, h0, DrawCmd.isFillRect]
  · have h1 : ((fieldPoints values.dimension p).map (drawVector values)).countP
        DrawCmd.isFillCircle = ((fieldPoints values.dimension p).map (drawVector values)).length := by
      rw [List.countP_eq_length]
      intro c hc
      obtain ⟨v, _, rfl⟩ := List.mem_map.mp hc
      simp [drawVector, DrawCmd.isFillCircle]
    simp [renderFrame, List.countP_cons, h1, List.length_map, fieldPoints_length,
      DrawCmd.isFillCircle]
  · refine ⟨(fieldPoints 1 0).map (drawVector params640), rfl, ?_, ?_⟩
    · rw [List.length_map, fieldPoints_length]
      norm_num
    · intro c hc
      obtain ⟨v, _, rfl⟩ := List.mem_map.mp hc
      simp [drawVector, DrawCmd.isFillCircle]

/-! ## Parameter-fold helpers -/

lemma sameField_trans {a b c : PaneParams} {f : Field}
    (h1 : sameField a b f) (h2 : sameField b c f) : sameField a c f := by
  cases f <;> exact h1.trans h2

lemma merge_sets (s : PaneParams) (e : ParamEdit) :
    e.setsIn (mergeParams s e.patch) := by
  cases e <;> rfl

lemma merge_retains (s : PaneParams) (e : ParamEdit) (f : Field)
    (hf : f ≠ e.field) : sameField (mergeParams s e.patch) s f := by
  cases e <;> cases f <;> first
    | rfl
    | exact absurd rfl hf

lemma foldl_merge_untouched (f : Field) :
    ∀ (post : List ParamEdit) (s : PaneParams), (∀ e' ∈ post, e'.field ≠ f) →
      sameField (post.foldl (fun acc e => mergeParams acc e.patch) s) s f := by
  intro post
  induction post with
  | nil =>
    intro s _
    cases f <;> rfl
  | cons e rest ih =>
    intro s h
    have he : e.field ≠ f := h e (List.mem_cons_self e rest)
    have hrest := ih (mergeParams s e.patch) fun e' h' => h e' (List.mem_cons_of_mem e h')
    exact sameField_trans hrest (merge_retains s e f (Ne.symm he))

/-- C7: the parameters stream starts from the fully-populated default
snapshot (the initial empty patch merges to the default) and folds each
single-field edit by record merge: the edit writes exactly its named
field, every other field retains its prior value, and the field named
by an edit still holds that edit's value after any later edits that
name other fields (last-write-wins per field).  Snapshots are total
records, so no field is ever absent. -/
theorem valuesAfter_spec :
    valuesAfter [] = paneParams
    ∧ mergeParams paneParams emptyPartial = paneParams
    ∧ (∀ (s : PaneParams) (e : ParamEdit), e.setsIn (mergeParams s e.patch))
    ∧ (∀ (s : PaneParams) (e : ParamEdit) (f : Field), f ≠ e.field →
        sameField (mergeParams s e.patch) s f)
    ∧ (∀ (pre : List ParamEdit) (e : ParamEdit) (post : List ParamEdit),
        (∀ e' ∈ post, e'.field ≠ e.field) →
        sameField (valuesAfter (pre ++ e :: post))
          (mergeParams (valuesAfter pre) e.patch) e.field) := by
  refine ⟨rfl, rfl, merge_sets, fun s e f hf => merge_retains s e f hf, ?_⟩
  intro pre e post h
  rw [valuesAfter, List.foldl_append, List.foldl_cons]
  exact foldl_merge_untouched e.field post (mergeParams (valuesAfter pre) e.patch) h

/-- Witness for C7: after edits `width := 100`, `width := 200`,
`baseSize := 7`, the width field holds the value of its most recent
edit and untouched fields retain their value. -/
theorem valuesAfter_spec_witness :
    (Field.height ≠ (ParamEdit.setWidth (200 : ℝ)).field
      ∧ sameField (mergeParams paneParams (ParamEdit.setWidth (200 : ℝ)).patch)
          paneParams Field.height)
    ∧ sameField
        (valuesAfter ([ParamEdit.setWidth 100] ++
          ParamEdit.setWidth 200 :: [ParamEdit.setBaseSize 7]))
        (mergeParams (valuesAfter [ParamEdit.setWidth 100])
          (ParamEdit.setWidth (200 : ℝ)).patch)
        (ParamEdit.setWidth (200 : ℝ)).field :=
  ⟨⟨by decide,
    valuesAfter_spec.2.2.2.1 paneParams (ParamEdit.setWidth 200) Field.height (by decide)⟩,
   valuesAfter_spec.2.2.2.2 [ParamEdit.setWidth 100] (ParamEdit.setWidth 200)
     [ParamEdit.setBaseSize 7]
     (by
       intro e' he'
       rw [List.mem_singleton] at he'
       subst he'
       decide)⟩

/-! ## Radial-coordinate helpers -/

lemma div_sq_le_one {D : ℕ} {n : ℤ} (hD : 1 ≤ D) (hl : -(D : ℤ) ≤ n) (hu : n < D) :
    ((n : ℝ) / D) ^ 2 ≤ 1 := by
  have hD0 : (0 : ℝ) < (D : ℝ) := by
    exact_mod_cast Nat.lt_of_lt_of_le Nat.zero_lt_one hD
  rw [div_pow, div_le_one (by positivity)]
  have hn : n ^ 2 ≤ (D : ℤ) ^ 2 := by nlinarith [sq_nonneg (n + D), sq_nonneg (n - D)]
  exact_mod_cast hn

lemma fieldPoint_z_eq (D : ℕ) (p : ℝ) (i j : ℤ) :
    (fieldPoint D p i j).z =
      Real.sqrt (((i : ℝ) / D) ^ 2 + ((j : ℝ) / D) ^ 2) / Real.sqrt 2 := rfl

lemma fieldPoint_z_nonneg (D : ℕ) (p : ℝ) (i j : ℤ) : 0 ≤ (fieldPoint D p i j).z := by
  rw [fieldPoint_z_eq]
  positivity

lemma fieldPoint_z_le_one {D : ℕ} {i j : ℤ} (hD : 1 ≤ D)
    (hil : -(D : ℤ) ≤ i) (hiu : i < D) (hjl : -(D : ℤ) ≤ j) (hju : j < D) (p : ℝ) :
    (fieldPoint D p i j).z ≤ 1 := by
  rw [fieldPoint_z_eq, div_le_one (Real.sqrt_pos.mpr two_pos)]
  have h1 := div_sq_le_one hD hil hiu
  have h2 := div_sq_le_one hD hjl hju
  exact Real.sqrt_le_sqrt (by linarith)

lemma div_sq_eq_one_iff {D : ℕ} {n : ℤ} (hD : 1 ≤ D) (hl : -(D : ℤ) ≤ n) (hu : n < D) :
    ((n : ℝ) / D) ^ 2 = 1 ↔ n = -(D : ℤ) := by
  have hD0 : (0 : ℝ) < (D : ℝ) := by
    exact_mod_cast Nat.lt_of_lt_of_le Nat.zero_lt_one hD
  rw [div_pow, div_eq_one_iff_eq (by positivity)]
  constructor
  · intro h
    have h' : n ^ 2 = (D : ℤ) ^ 2 := by exact_mod_cast h
    have hfac : (n - (D : ℤ)) * (n + (D : ℤ)) = 0 := by linear_combination h'
    rcases mul_eq_zero.mp hfac with h1 | h1 <;> omega
  · intro h
    subst h
    push_cast
    ring

lemma div_eq_zero_iff_int {D : ℕ} {n : ℤ} (hD : 1 ≤ D) :
    ((n : ℝ) / D) = 0 ↔ n = 0 := by
  have hD0 : ((D : ℝ)) ≠ 0 := by
    have : (0 : ℝ) < (D : ℝ) := by
      exact_mod_cast Nat.lt_of_lt_of_le Nat.zero_lt_one hD
    exact this.ne'
  rw [div_eq_zero_iff]
  simp [hD0]

/-- C10: for every field point with dimension `D ≥ 1` and loop indices
in `[-D, D)`, the `z` component `r = √((i/D)² + (j/D)²)/√2` lies in
`[0, 1]`, is `0` exactly at `i = j = 0` and `1` exactly at
`i = j = -D`; hence every emitted point's `z` is in `[0, 1]` (so the
three-way colour bucketing covers it) and, for positive `depthScalar`
and `baseSize`, the drawn diameter `z·depthScalar·baseSize` is
non-negative and at most `depthScalar·baseSize`. -/
theorem fieldPoint_z_spec (D : ℕ) (i j : ℤ) (p : ℝ) (params : PaneParams)
    (hD : 1 ≤ D) (hil : -(D : ℤ) ≤ i) (hiu : i < D) (hjl : -(D : ℤ) ≤ j) (hju : j < D) :
    0 ≤ (fieldPoint D p i j).z
    ∧ (fieldPoint D p i j).z ≤ 1
    ∧ ((fieldPoint D p i j).z = 0 ↔ i = 0 ∧ j = 0)
    ∧ ((fieldPoint D p i j).z = 1 ↔ i = -(D : ℤ) ∧ j = -(D : ℤ))
    ∧ (∀ v ∈ fieldPoints D p, 0 ≤ v.z ∧ v.z ≤ 1)
    ∧ (0 < params.depthScalar → 0 < params.baseSize →
        0 ≤ (projectVector (fieldPoint D p i j) params).w
        ∧ (projectVector (fieldPoint D p i j) params).w ≤
            params.depthScalar * params.baseSize) := by
  have hs2 : Real.sqrt 2 ≠ 0 := by positivity
  have ha2 := div_sq_le_one hD hil hiu
  have hb2 := div_sq_le_one hD hjl hju
  have hsum0 : (0 : ℝ) ≤ ((i : ℝ) / D) ^ 2 + ((j : ℝ) / D) ^ 2 := by positivity
  have hz0 := fieldPoint_z_nonneg D p i j
  have hz1 := fieldPoint_z_le_one hD hil hiu hjl hju p
  refine ⟨hz0, hz1, ?_, ?_, ?_, ?_⟩
  · rw [fieldPoint_z_eq, div_eq_zero_iff, or_iff_left hs2,
      Real.sqrt_eq_zero hsum0]
    constructor
    · intro h
      have hia : ((i : ℝ) / D) ^ 2 = 0 := by nlinarith [sq_nonneg ((i : ℝ) / D), sq_nonneg ((j : ℝ) / D)]
      have hja : ((j : ℝ) / D) ^ 2 = 0 := by nlinarith [sq_nonneg ((i : ℝ) / D), sq_nonneg ((j : ℝ) / D)]
      exact ⟨(div_eq_zero_iff_int hD).mp (pow_eq_zero_iff two_ne_zero |>.mp hia),
        (div_eq_zero_iff_int hD).mp (pow_eq_zero_iff two_ne_zero |>.mp hja)⟩
    · rintro ⟨rfl, rfl⟩
      norm_num
  · rw [fieldPoint_z_eq, div_eq_one_iff_eq hs2,
      Real.sqrt_inj hsum0 (by norm_num)]
    constructor
    · intro h
      exact ⟨(div_sq_eq_one_iff hD hil hiu).mp (by linarith),
        (div_sq_eq_one_iff hD hjl hju).mp (by linarith)⟩
    · rintro ⟨hi, hj⟩
      have h1 := (div_sq_eq_one_iff hD hil hiu).mpr hi
      have h2 := (div_sq_eq_one_iff hD hjl hju).mpr hj
      linarith
  · intro v hv
    obtain ⟨i', j', hi', hj', rfl⟩ := mem_fieldPoints hv
    obtain ⟨hil', hiu'⟩ := mem_fieldIndices hi'
    obtain ⟨hjl', hju'⟩ := mem_fieldIndices hj'
    exact ⟨fieldPoint_z_nonneg D p i' j', fieldPoint_z_le_one hD hil' hiu' hjl' hju' p⟩
  · intro hds hbs
    have hw : (projectVector (fieldPoint D p i j) params).w =
        (fieldPoint D p i j).z * params.depthScalar * params.baseSize := rfl
    rw [hw]
    constructor
    · positivity
    · have h1 := mul_le_mul_of_nonneg_right
        (mul_le_mul_of_nonneg_right hz1 hds.le) hbs.le
      linarith

/-- Witness for C10 at `D = 1`, `i = j = 0`, `p = 0`, default snapshot. -/
theorem fieldPoint_z_spec_witness :
    (1 ≤ 1 ∧ -(1 : ℤ) ≤ 0 ∧ (0 : ℤ) < 1)
    ∧ 0 ≤ (fieldPoint 1 0 0 0).z
    ∧ ((fieldPoint 1 0 0 0).z = 0 ↔ (0 : ℤ) = 0 ∧ (0 : ℤ) = 0) :=
  ⟨⟨by norm_num, by norm_num, by norm_num⟩,
   (fieldPoint_z_spec 1 0 0 0 paneParams (by norm_num) (by norm_num) (by norm_num)
     (by norm_num) (by norm_num)).1,
   (fieldPoint_z_spec 1 0 0 0 paneParams (by norm_num) (by norm_num) (by norm_num)
     (by norm_num) (by norm_num)).2.2.1⟩

end Hakase
